import Mathlib

/-!
# Verification of the ps2-map-analyzer territory-capture core

Shallow embedding of the territory-capture analysis of the repository:

* `src/backend/map_tools.py` — `find_capturable_bases` (dict-based analyzer)
  and `find_capturable_bases_v2` (typed stub raising `NotImplementedError`);
* `src/backend/services/sanctuary/external_models/zone.py` — `ZoneData.lattice`
  and `ZoneData.as_zone` (ingestion of zone topology);
* `src/backend/shared/models/common.py` — the `Faction` / `Continent` enums;
* `src/backend/main.py` — the `capturable_bases` endpoint body (modulo I/O).

Python dicts used purely as lookup tables are embedded as functions
`Nat → Option α` built by successive `updateMap` applications (later updates
shadow earlier ones, matching dict-overwrite semantics).  A raised exception
is embedded as `none` in an `Option` result.  In-place mutation of the
`map_state` argument is embedded by returning the post-call list of state
records alongside the result set.
-/

/-- One record of `map_state["map_state_list"]` as `find_capturable_bases`
sees it: the fields the function reads (`map_region_id`,
`owning_faction_id`) and the field it writes (`facility_id`, absent from the
upstream payload, hence `Option`). -/
structure StateRec where
  map_region_id : Nat
  owning_faction_id : Nat
  facility_id : Option Nat
deriving DecidableEq, Repr

/-- One record of `region_list["map_region_list"]`: `map_region_id` plus an
optional `facility_id` (the source guards with `if "facility_id" in data`). -/
structure RegionRec where
  map_region_id : Nat
  facility_id : Option Nat
deriving DecidableEq, Repr

/-- One record of `links["facility_link_list"]`. -/
structure LinkRec where
  facility_id_a : Nat
  facility_id_b : Nat
deriving DecidableEq, Repr

/-- The `links` payload argument. -/
structure FacilityLinks where
  facility_link_list : List LinkRec
deriving DecidableEq, Repr

/-- The `map_state` payload argument. -/
structure MapStatePayload where
  map_state_list : List StateRec
deriving DecidableEq, Repr

/-- The `region_list` payload argument. -/
structure RegionListPayload where
  map_region_list : List RegionRec
deriving DecidableEq, Repr

/-- A state record as stored in the local `facilities` dict of
`find_capturable_bases`: at that point the loop has just executed
`facility_state["facility_id"] = ...`, so `facility_id` is present (a plain
`Nat`). -/
structure IngestedState where
  map_region_id : Nat
  owning_faction_id : Nat
  facility_id : Nat
deriving DecidableEq, Repr

/-- Dict update: `m[k] = v` (later updates shadow earlier ones). -/
def updateMap {α : Type} (m : Nat → Option α) (k : Nat) (v : α) : Nat → Option α :=
  fun x => if x = k then some v else m x

/-- The dict comprehension
`{data["map_region_id"]: data["facility_id"] for data in region_list["map_region_list"] if "facility_id" in data}`. -/
def buildRegionToFacility : List RegionRec → (Nat → Option Nat) → (Nat → Option Nat)
  | [], m => m
  | r :: rest, m =>
    match r.facility_id with
    | some fid => buildRegionToFacility rest (updateMap m r.map_region_id fid)
    | none => buildRegionToFacility rest m

/-- The first loop of `find_capturable_bases`:
for each `facility_state`, execute
`facility_state["facility_id"] = map_region_to_facility[facility_state["map_region_id"]]`
(a `KeyError` — embedded as `none` — when the region id is not a key of the
lookup) and `facilities[facility_state["facility_id"]] = facility_state`.
Returns the post-loop `map_state_list` (the records are mutated in place in
the source) together with the `facilities` dict. -/
def ingestStates (r2f : Nat → Option Nat) :
    List StateRec → (Nat → Option IngestedState) →
    Option (List StateRec × (Nat → Option IngestedState))
  | [], fac => some ([], fac)
  | s :: rest, fac =>
    match r2f s.map_region_id with
    | none => none
    | some fid =>
      match ingestStates r2f rest (updateMap fac fid ⟨s.map_region_id, s.owning_faction_id, fid⟩) with
      | none => none
      | some (rest2, fac2) => some ({ s with facility_id := some fid } :: rest2, fac2)

/-- One iteration of the second loop of `find_capturable_bases`, for one
link: the two `facilities.get` lookups (a missing — or, unreachable here,
falsy — entry means `continue`), the frontier test
`(faction_a == faction_id or faction_b == faction_id) and faction_a != faction_b`,
and the `capturable_facilities.add(...)` on the matching side. -/
def addLink (faction_id : Nat) (fac : Nat → Option IngestedState)
    (acc : Finset Nat) (l : LinkRec) : Finset Nat :=
  match fac l.facility_id_a with
  | none => acc
  | some fa =>
    match fac l.facility_id_b with
    | none => acc
    | some fb =>
      if (fa.owning_faction_id = faction_id ∨ fb.owning_faction_id = faction_id) ∧
          fa.owning_faction_id ≠ fb.owning_faction_id then
        if fa.owning_faction_id = faction_id then insert fb.facility_id acc
        else insert fa.facility_id acc
      else acc

/-- The contribution of a single link to the result set (`none` when the
source hits `continue` or the frontier test fails; `some x` when the source
executes `capturable_facilities.add(x)`).  Extracted from the same branch
structure as `addLink`. -/
def edgeGives (faction_id : Nat) (fac : Nat → Option IngestedState)
    (l : LinkRec) : Option Nat :=
  match fac l.facility_id_a with
  | none => none
  | some fa =>
    match fac l.facility_id_b with
    | none => none
    | some fb =>
      if (fa.owning_faction_id = faction_id ∨ fb.owning_faction_id = faction_id) ∧
          fa.owning_faction_id ≠ fb.owning_faction_id then
        if fa.owning_faction_id = faction_id then some fb.facility_id
        else some fa.facility_id
      else none

/-- The second loop of `find_capturable_bases` over `links["facility_link_list"]`,
accumulating the `capturable_facilities` set. -/
def scanLinks (faction_id : Nat) (fac : Nat → Option IngestedState) :
    List LinkRec → Finset Nat → Finset Nat
  | [], acc => acc
  | l :: rest, acc => scanLinks faction_id fac rest (addLink faction_id fac acc l)

/-- `find_capturable_bases(faction_id, links, map_state, region_list)` from
`src/backend/map_tools.py`.  The returned pair is (post-call `map_state` —
the source mutates it in place — , returned set); `none` embeds an uncaught
`KeyError`. -/
def find_capturable_bases (faction_id : Nat) (links : FacilityLinks)
    (map_state : MapStatePayload) (region_list : RegionListPayload) :
    Option (MapStatePayload × Finset Nat) :=
  match ingestStates (buildRegionToFacility region_list.map_region_list (fun _ => none))
      map_state.map_state_list (fun _ => none) with
  | none => none
  | some (newStates, fac) =>
    some (⟨newStates⟩, scanLinks faction_id fac links.facility_link_list ∅)

/-! ## Helper lemmas -/

theorem addLink_eq_edgeGives (f : Nat) (fac : Nat → Option IngestedState)
    (acc : Finset Nat) (l : LinkRec) :
    addLink f fac acc l =
      match edgeGives f fac l with
      | some x => insert x acc
      | none => acc := by
  unfold addLink edgeGives
  cases fac l.facility_id_a with
  | none => rfl
  | some fa =>
    cases fac l.facility_id_b with
    | none => rfl
    | some fb =>
      dsimp only
      by_cases h : (fa.owning_faction_id = f ∨ fb.owning_faction_id = f) ∧
          fa.owning_faction_id ≠ fb.owning_faction_id
      · by_cases h2 : fa.owning_faction_id = f
        · rw [if_pos h, if_pos h2, if_pos h, if_pos h2]
        · rw [if_pos h, if_neg h2, if_pos h, if_neg h2]
      · rw [if_neg h, if_neg h]

theorem mem_scanLinks (f : Nat) (fac : Nat → Option IngestedState)
    (ls : List LinkRec) (acc : Finset Nat) (x : Nat) :
    x ∈ scanLinks f fac ls acc ↔
      x ∈ acc ∨ ∃ l ∈ ls, edgeGives f fac l = some x := by
  induction ls generalizing acc with
  | nil => simp [scanLinks]
  | cons l rest ih =>
    rw [scanLinks, ih, addLink_eq_edgeGives]
    cases h : edgeGives f fac l with
    | none => simp [h]
    | some y =>
      simp only [h, Finset.mem_insert, List.mem_cons]
      constructor
      · rintro (⟨rfl | hx⟩ | ⟨l', hl', hg⟩)
        · exact Or.inr ⟨l, Or.inl rfl, h⟩
        · exact Or.inl hx
        · exact Or.inr ⟨l', Or.inr hl', hg⟩
      · rintro (hx | ⟨l', hl' | hl', hg⟩)
        · exact Or.inl (Or.inr hx)
        · subst hl'
          rw [h] at hg
          exact Or.inl (Or.inl (Option.some_injective _ hg).symm)
        · exact Or.inr ⟨l', hl', hg⟩

theorem ingestStates_key (r2f : Nat → Option Nat) (ss : List StateRec)
    (fac0 : Nat → Option IngestedState) (ss2 : List StateRec)
    (fac : Nat → Option IngestedState)
    (h : ingestStates r2f ss fac0 = some (ss2, fac))
    (h0 : ∀ k r, fac0 k = some r → r.facility_id = k) :
    ∀ k r, fac k = some r → r.facility_id = k := by
  induction ss generalizing fac0 ss2 with
  | nil =>
    simp only [ingestStates, Option.some.injEq, Prod.mk.injEq] at h
    obtain ⟨rfl, rfl⟩ := h
    exact h0
  | cons s rest ih =>
    rw [ingestStates] at h
    split at h
    · simp at h
    next fid hr =>
      split at h
      · simp at h
      next rest2 fac2 hrec =>
        simp only [Option.some.injEq, Prod.mk.injEq] at h
        obtain ⟨h1, rfl⟩ := h
        refine ih _ _ hrec ?_
        intro k r hk
        unfold updateMap at hk
        by_cases hkf : k = fid
        · subst hkf
          rw [if_pos rfl] at hk
          injection hk with hk2
          subst hk2
          rfl
        · rw [if_neg hkf] at hk
          exact h0 k r hk

theorem ingestStates_idem (r2f : Nat → Option Nat) (ss : List StateRec)
    (fac0 : Nat → Option IngestedState) (ss2 : List StateRec)
    (fac : Nat → Option IngestedState)
    (h : ingestStates r2f ss fac0 = some (ss2, fac)) :
    ingestStates r2f ss2 fac0 = some (ss2, fac) := by
  induction ss generalizing fac0 ss2 with
  | nil =>
    simp only [ingestStates, Option.some.injEq, Prod.mk.injEq] at h
    obtain ⟨rfl, rfl⟩ := h
    rfl
  | cons s rest ih =>
    rw [ingestStates] at h
    split at h
    · simp at h
    next fid hr =>
      split at h
      · simp at h
      next rest2 fac2 hrec =>
        simp only [Option.some.injEq, Prod.mk.injEq] at h
        obtain ⟨rfl, rfl⟩ := h
        rw [ingestStates]
        dsimp only
        rw [hr]
        dsimp only
        rw [ih _ _ hrec]

theorem ingestStates_shape (r2f : Nat → Option Nat) (ss : List StateRec)
    (fac0 : Nat → Option IngestedState) (ss2 : List StateRec)
    (fac : Nat → Option IngestedState)
    (h : ingestStates r2f ss fac0 = some (ss2, fac)) :
    List.Forall₂ (fun s t => t.map_region_id = s.map_region_id ∧
      t.owning_faction_id = s.owning_faction_id ∧
      t.facility_id = r2f s.map_region_id) ss ss2 := by
  induction ss generalizing fac0 ss2 with
  | nil =>
    simp only [ingestStates, Option.some.injEq, Prod.mk.injEq] at h
    obtain ⟨rfl, rfl⟩ := h
    exact List.Forall₂.nil
  | cons s rest ih =>
    rw [ingestStates] at h
    split at h
    · simp at h
    next fid hr =>
      split at h
      · simp at h
      next rest2 fac2 hrec =>
        simp only [Option.some.injEq, Prod.mk.injEq] at h
        obtain ⟨rfl, rfl⟩ := h
        exact List.Forall₂.cons ⟨rfl, rfl, hr.symm⟩ (ih _ _ hrec)

/-! ## Claim theorems -/

/-- C1: for every lattice edge (A, B) where both endpoints have a recorded
owner in the ownership snapshot (the `facilities` dict) and the owners
differ, `find_capturable_bases(faction, ...)` adds B to the result exactly
when A's owner equals the querying faction, and adds A exactly when B's
owner equals it; an edge whose two owners are equal, or where neither owner
equals the querying faction, contributes nothing; and the returned set is
exactly the union of the per-edge contributions. -/
theorem find_capturable_bases_edge_rule (faction_id : Nat)
    (links : FacilityLinks) (map_state : MapStatePayload)
    (region_list : RegionListPayload) (ss2 : List StateRec)
    (fac : Nat → Option IngestedState)
    (hing : ingestStates
        (buildRegionToFacility region_list.map_region_list (fun _ => none))
        map_state.map_state_list (fun _ => none) = some (ss2, fac)) :
    ∃ res : Finset Nat,
      find_capturable_bases faction_id links map_state region_list =
        some (⟨ss2⟩, res) ∧
      (∀ x, x ∈ res ↔
        ∃ l ∈ links.facility_link_list, edgeGives faction_id fac l = some x) ∧
      (∀ l fa fb, fac l.facility_id_a = some fa → fac l.facility_id_b = some fb →
        fa.owning_faction_id ≠ fb.owning_faction_id →
        (fa.owning_faction_id = faction_id →
          edgeGives faction_id fac l = some fb.facility_id) ∧
        (fb.owning_faction_id = faction_id →
          edgeGives faction_id fac l = some fa.facility_id) ∧
        (fa.owning_faction_id ≠ faction_id → fb.owning_faction_id ≠ faction_id →
          edgeGives faction_id fac l = none)) ∧
      (∀ l fa fb, fac l.facility_id_a = some fa → fac l.facility_id_b = some fb →
        fa.owning_faction_id = fb.owning_faction_id →
        edgeGives faction_id fac l = none) := by
  refine ⟨scanLinks faction_id fac links.facility_link_list ∅, ?_, ?_, ?_, ?_⟩
  · unfold find_capturable_bases
    rw [hing]
  · intro x
    rw [mem_scanLinks]
    simp
  · intro l fa fb ha hb hne
    unfold edgeGives
    rw [ha, hb]
    dsimp only
    refine ⟨?_, ?_, ?_⟩
    · intro hfa
      rw [if_pos ⟨Or.inl hfa, hne⟩, if_pos hfa]
    · intro hfb
      have hfa : fa.owning_faction_id ≠ faction_id := fun hh => hne (hh.trans hfb.symm)
      rw [if_pos ⟨Or.inr hfb, hne⟩, if_neg hfa]
    · intro hfa hfb
      rw [if_neg (fun hc => hc.1.elim hfa hfb)]
  · intro l fa fb ha hb heq
    unfold edgeGives
    rw [ha, hb]
    dsimp only
    rw [if_neg (fun hc => hc.2 heq)]

/-- Witness for C1 at a concrete input (VS = 1 owns 302020, TR = 3 owns
302030, one link): the ingestion hypothesis is discharged by computation and
the edge characterization puts 302030 in VS's result. -/
theorem find_capturable_bases_edge_rule_witness :
    ∃ res : Finset Nat,
      find_capturable_bases 1 ⟨[⟨302020, 302030⟩]⟩
        ⟨[⟨4101, 1, none⟩, ⟨4102, 3, none⟩]⟩
        ⟨[⟨4101, some 302020⟩, ⟨4102, some 302030⟩]⟩ =
        some (⟨[⟨4101, 1, some 302020⟩, ⟨4102, 3, some 302030⟩]⟩, res) ∧
      302030 ∈ res := by
  obtain ⟨res, hfind, hmem, -, -⟩ :=
    find_capturable_bases_edge_rule 1 ⟨[⟨302020, 302030⟩]⟩
      ⟨[⟨4101, 1, none⟩, ⟨4102, 3, none⟩]⟩
      ⟨[⟨4101, some 302020⟩, ⟨4102, some 302030⟩]⟩
      [⟨4101, 1, some 302020⟩, ⟨4102, 3, some 302030⟩]
      (updateMap (updateMap (fun _ => none) 302020 ⟨4101, 1, 302020⟩)
        302030 ⟨4102, 3, 302030⟩)
      rfl
  refine ⟨res, hfind, ?_⟩
  rw [hmem]
  exact ⟨⟨302020, 302030⟩, by simp, by decide⟩

/-- C6: a facility with no recorded state in the snapshot (no entry in the
`facilities` dict) never appears in the returned capturable set, and every
link with such an endpoint contributes nothing in either direction. -/
theorem find_capturable_bases_unknown_excluded (faction_id : Nat)
    (links : FacilityLinks) (map_state : MapStatePayload)
    (region_list : RegionListPayload) (ss2 : List StateRec)
    (fac : Nat → Option IngestedState) (x : Nat)
    (hing : ingestStates
        (buildRegionToFacility region_list.map_region_list (fun _ => none))
        map_state.map_state_list (fun _ => none) = some (ss2, fac))
    (hx : fac x = none) :
    ∃ res : Finset Nat,
      find_capturable_bases faction_id links map_state region_list =
        some (⟨ss2⟩, res) ∧
      x ∉ res ∧
      ∀ l ∈ links.facility_link_list,
        l.facility_id_a = x ∨ l.facility_id_b = x →
        edgeGives faction_id fac l = none := by
  have hkey := ingestStates_key _ _ _ _ _ hing
    (by intro k r hk; exact absurd hk (by simp))
  refine ⟨scanLinks faction_id fac links.facility_link_list ∅, ?_, ?_, ?_⟩
  · unfold find_capturable_bases
    rw [hing]
  · intro hmemx
    rw [mem_scanLinks] at hmemx
    rcases hmemx with h0 | ⟨l, hl, hg⟩
    · exact (Finset.not_mem_empty x) h0
    · unfold edgeGives at hg
      split at hg
      · simp at hg
      next fa ha =>
        split at hg
        · simp at hg
        next fb hb =>
          split at hg
          · split at hg
            next hfa =>
              injection hg with hg2
              rw [hkey _ _ hb] at hg2
              rw [← hg2] at hx
              rw [hb] at hx
              simp at hx
            next hfa =>
              injection hg with hg2
              rw [hkey _ _ ha] at hg2
              rw [← hg2] at hx
              rw [ha] at hx
              simp at hx
          · simp at hg
  · intro l _ hend
    unfold edgeGives
    rcases hend with hA | hB
    · rw [hA, hx]
    · cases ha : fac l.facility_id_a with
      | none => rfl
      | some fa =>
        dsimp only
        rw [hB, hx]

/-- Witness for C6: facility 999 is linked to 302020 but has no snapshot
entry; it is not in VS's capturable set. -/
theorem find_capturable_bases_unknown_excluded_witness :
    ∃ res : Finset Nat,
      find_capturable_bases 1 ⟨[⟨302020, 999⟩]⟩ ⟨[⟨4101, 1, none⟩]⟩
        ⟨[⟨4101, some 302020⟩]⟩ =
        some (⟨[⟨4101, 1, some 302020⟩]⟩, res) ∧
      999 ∉ res := by
  obtain ⟨res, hfind, hnot, -⟩ :=
    find_capturable_bases_unknown_excluded 1 ⟨[⟨302020, 999⟩]⟩
      ⟨[⟨4101, 1, none⟩]⟩ ⟨[⟨4101, some 302020⟩]⟩
      [⟨4101, 1, some 302020⟩]
      (updateMap (fun _ => none) 302020 ⟨4101, 1, 302020⟩)
      999 rfl rfl
  exact ⟨res, hfind, hnot⟩

/-- C8: calling `find_capturable_bases` a second time on the same (now
mutated in place) arguments returns the same result set and leaves the
arguments in the same state. -/
theorem find_capturable_bases_idem (faction_id : Nat) (links : FacilityLinks)
    (map_state : MapStatePayload) (region_list : RegionListPayload)
    (st2 : MapStatePayload) (res : Finset Nat)
    (h : find_capturable_bases faction_id links map_state region_list =
      some (st2, res)) :
    find_capturable_bases faction_id links st2 region_list =
      some (st2, res) := by
  unfold find_capturable_bases at h ⊢
  split at h
  · simp at h
  next newStates fac hing =>
    simp only [Option.some.injEq, Prod.mk.injEq] at h
    obtain ⟨rfl, rfl⟩ := h
    dsimp only
    rw [ingestStates_idem _ _ _ _ _ hing]

/-- Witness for C8: the second call on the mutated map state reproduces the
first call's output. -/
theorem find_capturable_bases_idem_witness :
    find_capturable_bases 1 ⟨[⟨302020, 302030⟩]⟩
      ⟨[⟨4101, 1, some 302020⟩, ⟨4102, 3, some 302030⟩]⟩
      ⟨[⟨4101, some 302020⟩, ⟨4102, some 302030⟩]⟩ =
      some (⟨[⟨4101, 1, some 302020⟩, ⟨4102, 3, some 302030⟩]⟩, {302030}) :=
  find_capturable_bases_idem 1 ⟨[⟨302020, 302030⟩]⟩
    ⟨[⟨4101, 1, none⟩, ⟨4102, 3, none⟩]⟩
    ⟨[⟨4101, some 302020⟩, ⟨4102, some 302030⟩]⟩
    ⟨[⟨4101, 1, some 302020⟩, ⟨4102, 3, some 302030⟩]⟩ {302030} (by decide)

/-- C2 (evidence): a `map_state` record whose `map_region_id` (here 4107)
has no corresponding `facility_id` in the region list is not dropped — the
lookup `map_region_to_facility[...]` raises `KeyError` (embedded `none`),
so `find_capturable_bases` fails instead of returning a result set. -/
theorem find_capturable_bases_unmapped_region_raises :
    find_capturable_bases 1 ⟨[⟨302020, 302030⟩]⟩
      ⟨[⟨4101, 1, none⟩, ⟨4107, 3, none⟩]⟩
      ⟨[⟨4101, some 302020⟩, ⟨4102, some 302030⟩]⟩ = none := by
  decide

/-- C5 (counterexample): `find_capturable_bases` does not leave its
`map_state` argument unchanged — the call writes a `facility_id` key into
the state record, so the post-call `map_state` differs from the input. -/
theorem find_capturable_bases_mutates_map_state :
    find_capturable_bases 1 ⟨[]⟩ ⟨[⟨4101, 1, none⟩]⟩ ⟨[⟨4101, some 302020⟩]⟩ =
      some (⟨[⟨4101, 1, some 302020⟩]⟩, ∅) ∧
    (⟨[⟨4101, 1, some 302020⟩]⟩ : MapStatePayload) ≠ ⟨[⟨4101, 1, none⟩]⟩ := by
  decide

/-- C5 (amended): on a successful call the only change to `map_state` is the
`facility_id` field of each record, set to the region-to-facility lookup of
that record's unchanged `map_region_id`; `faction_id`, `links` and
`region_list` play no part in the mutation. -/
theorem find_capturable_bases_frame (faction_id : Nat) (links : FacilityLinks)
    (map_state : MapStatePayload) (region_list : RegionListPayload)
    (st2 : MapStatePayload) (res : Finset Nat)
    (h : find_capturable_bases faction_id links map_state region_list =
      some (st2, res)) :
    List.Forall₂ (fun s t => t.map_region_id = s.map_region_id ∧
      t.owning_faction_id = s.owning_faction_id ∧
      t.facility_id = buildRegionToFacility region_list.map_region_list
        (fun _ => none) s.map_region_id)
      map_state.map_state_list st2.map_state_list := by
  unfold find_capturable_bases at h
  split at h
  · simp at h
  next newStates fac hing =>
    simp only [Option.some.injEq, Prod.mk.injEq] at h
    obtain ⟨rfl, rfl⟩ := h
    exact ingestStates_shape _ _ _ _ _ hing

/-- Witness for C5's amended frame property at a concrete input. -/
theorem find_capturable_bases_frame_witness :
    List.Forall₂ (fun (s t : StateRec) => t.map_region_id = s.map_region_id ∧
      t.owning_faction_id = s.owning_faction_id ∧
      t.facility_id = buildRegionToFacility [⟨4101, some 302020⟩]
        (fun _ => none) s.map_region_id)
      [⟨4101, 1, none⟩] [⟨4101, 1, some 302020⟩] :=
  find_capturable_bases_frame 1 ⟨[]⟩ ⟨[⟨4101, 1, none⟩]⟩
    ⟨[⟨4101, some 302020⟩]⟩ ⟨[⟨4101, 1, some 302020⟩]⟩ ∅ (by decide)

/-! ## Typed domain model (`shared/models/common.py`, `map_state.py`, `zone.py`) -/

/-- The `Faction` enum of `shared/models/common.py`
(NEUTRAL = 0, VS = 1, NC = 2, TR = 3, NS = 4). -/
inductive Faction where
  | NEUTRAL
  | VS
  | NC
  | TR
  | NS
deriving DecidableEq, Repr

/-- The integer values of the `Faction` enum — the enumerated faction
domain. -/
def factionValues : Finset Nat := {0, 1, 2, 3, 4}

/-- The integer values of the `Continent` enum — the enumerated zone domain
(INDAR = 2, HOSSIN = 4, AMERISH = 6, ESAMIR = 8, OSHUR = 344). -/
def continentValues : Finset Nat := {2, 4, 6, 8, 344}

/-- `RegionState` of `shared/models/map_state.py`. -/
structure RegionState where
  map_region_id : Nat
  owning_faction_id : Faction
  last_updated : Nat
deriving DecidableEq, Repr

/-- `MapState` of `shared/models/map_state.py` (`region_states` dict as an
association list). -/
structure MapState where
  world_id : Nat
  zone_id : Nat
  region_states : List (Nat × RegionState)
deriving DecidableEq, Repr

/-- `Region` of `shared/models/zone.py` (the float `location`, the
`capture_reward` pair and the `hexes` list are presentation-only defaults,
unused by any analyzed operation, and are omitted). -/
structure Region where
  id : Nat
  name : String
  facility_id : Nat
  facility_type : Nat
deriving DecidableEq, Repr

/-- `Zone` of `shared/models/zone.py`: `regions` dict as an association
list, `lattice` dict as a function to (possibly empty) neighbor sets. -/
structure Zone where
  zone_id : Nat
  name : String
  hex_size : Nat
  regions : List (Nat × Region)
  lattice : Nat → Finset Nat

/-- `find_capturable_bases_v2(faction, state, zone)` from
`src/backend/map_tools.py`: its body is `raise NotImplementedError`,
embedded as the always-`none` computation. -/
def find_capturable_bases_v2 (faction : Faction) (state : MapState)
    (zone : Zone) : Option (Finset Nat) :=
  none

/-! ## Ingestion adapter (`services/sanctuary/external_models/zone.py`) -/

/-- `RegionData` of the sanctuary external zone model (floats, capture
reward and hexes omitted as above; `facility_id` is a required field here,
unlike in the raw dict payload). -/
structure RegionData where
  map_region_id : Nat
  facility_id : Nat
  facility_name : String
  facility_type_id : Nat
deriving DecidableEq, Repr

/-- `RegionData.as_region`. -/
def RegionData.as_region (r : RegionData) : Region :=
  { id := r.map_region_id, facility_id := r.facility_id,
    name := r.facility_name, facility_type := r.facility_type_id }

/-- `ZoneData` of the sanctuary external zone model (`geometry_id`, `type`
and `dynamic` are unused metadata and are omitted).  Its `links` records
have the same two fields as the raw link dicts, so `LinkRec` embeds both. -/
structure ZoneData where
  zone_id : Nat
  code : String
  hex_size : Nat
  links : List LinkRec
  regions : List RegionData
deriving DecidableEq, Repr

/-- `lattice.setdefault(k, set()).add(v)`: point `k` of the lattice dict
gains neighbor `v`. -/
def addToLattice (m : Nat → Finset Nat) (k v : Nat) : Nat → Finset Nat :=
  fun x => if x = k then insert v (m k) else m x

/-- The loop of the `ZoneData.lattice` computed field: each directional link
record is emitted in both directions. -/
def buildLattice : List LinkRec → (Nat → Finset Nat) → (Nat → Finset Nat)
  | [], m => m
  | l :: rest, m =>
    buildLattice rest
      (addToLattice (addToLattice m l.facility_id_a l.facility_id_b)
        l.facility_id_b l.facility_id_a)

/-- The `ZoneData.lattice` computed field. -/
def ZoneData.lattice (z : ZoneData) : Nat → Finset Nat :=
  buildLattice z.links (fun _ => ∅)

/-- `ZoneData.as_zone`: builds the regions dict keyed by `map_region_id`
and packages the computed lattice.  There is no error path. -/
def ZoneData.as_zone (z : ZoneData) : Zone :=
  { zone_id := z.zone_id, name := z.code, hex_size := z.hex_size,
    lattice := z.lattice,
    regions := z.regions.map (fun r => (r.map_region_id, r.as_region)) }

/-! ## Query façade (`src/backend/main.py`) -/

/-- The `capturable_bases` endpoint body of `src/backend/main.py`: the three
upstream fetches are network I/O and are modelled by passing the fetched
payloads as arguments; the handler performs no validation of `world_id`,
`zone_id` or `faction_id` anywhere and returns `find_capturable_bases`
applied to the payloads. -/
def capturable_bases (world_id : Nat) (zone_id : Nat) (faction_id : Nat)
    (facility_links : FacilityLinks) (map_state : MapStatePayload)
    (region_list : RegionListPayload) : Option (MapStatePayload × Finset Nat) :=
  find_capturable_bases faction_id facility_links map_state region_list

theorem mem_addToLattice (m : Nat → Finset Nat) (k v x y : Nat) :
    y ∈ addToLattice m k v x ↔ (x = k ∧ y = v) ∨ y ∈ m x := by
  unfold addToLattice
  by_cases h : x = k
  · subst h
    simp [Finset.mem_insert]
  · simp [h]

theorem mem_buildLattice (ls : List LinkRec) (m : Nat → Finset Nat) (a b : Nat) :
    b ∈ buildLattice ls m a ↔ b ∈ m a ∨ ∃ l ∈ ls,
      (l.facility_id_a = a ∧ l.facility_id_b = b) ∨
      (l.facility_id_b = a ∧ l.facility_id_a = b) := by
  induction ls generalizing m with
  | nil => simp [buildLattice]
  | cons l rest ih =>
    rw [buildLattice, ih, mem_addToLattice, mem_addToLattice]
    constructor
    · rintro ((⟨rfl, rfl⟩ | ⟨rfl, rfl⟩ | hmem) | ⟨l', hl', hor⟩)
      · exact Or.inr ⟨l, List.mem_cons_self l rest, Or.inr ⟨rfl, rfl⟩⟩
      · exact Or.inr ⟨l, List.mem_cons_self l rest, Or.inl ⟨rfl, rfl⟩⟩
      · exact Or.inl hmem
      · exact Or.inr ⟨l', List.mem_cons_of_mem _ hl', hor⟩
    · rintro (hmem | ⟨l', hl', hor⟩)
      · exact Or.inl (Or.inr (Or.inr hmem))
      · rcases List.mem_cons.mp hl' with rfl | hl2
        · rcases hor with ⟨h1, h2⟩ | ⟨h1, h2⟩
          · exact Or.inl (Or.inr (Or.inl ⟨h1.symm, h2.symm⟩))
          · exact Or.inl (Or.inl ⟨h1.symm, h2.symm⟩)
        · exact Or.inr ⟨l', hl2, hor⟩

/-- C10: `find_capturable_bases_v2` — the analyzer over the typed canonical
domain model — raises `NotImplementedError` (embedded as `none`) for every
faction, map state and zone; it never returns a result. -/
theorem find_capturable_bases_v2_raises (faction : Faction) (state : MapState)
    (zone : Zone) : find_capturable_bases_v2 faction state zone = none := rfl

/-- C4: for every Zone built by the ingestion adapter (`ZoneData.as_zone`),
the lattice is symmetric, even when the upstream link list contains only
one direction of a link. -/
theorem ZoneData_as_zone_lattice_symm (z : ZoneData) (a b : Nat)
    (h : b ∈ z.as_zone.lattice a) : a ∈ z.as_zone.lattice b := by
  have h' : b ∈ buildLattice z.links (fun _ => ∅) a := h
  rw [mem_buildLattice] at h'
  have h2 : a ∈ buildLattice z.links (fun _ => ∅) b := by
    rw [mem_buildLattice]
    rcases h' with h0 | ⟨l, hl, hor⟩
    · exact absurd h0 (Finset.not_mem_empty b)
    · exact Or.inr ⟨l, hl,
        hor.elim (fun hh => Or.inr ⟨hh.2, hh.1⟩) (fun hh => Or.inl ⟨hh.2, hh.1⟩)⟩
  exact h2

/-- Witness for C4: a single directional link record (1, 2) yields both
directions in the constructed lattice. -/
theorem ZoneData_as_zone_lattice_symm_witness :
    2 ∈ (⟨4, "Hossin", 200, [⟨1, 2⟩], []⟩ : ZoneData).as_zone.lattice 1 ∧
    1 ∈ (⟨4, "Hossin", 200, [⟨1, 2⟩], []⟩ : ZoneData).as_zone.lattice 2 :=
  ⟨by decide, ZoneData_as_zone_lattice_symm _ 1 2 (by decide)⟩

/-- C3 (counterexample): a `ZoneData` whose link list references facility 99,
absent from its region records, is converted by `as_zone` without any error
(`as_zone` is total — the source has no error path and `IngestionError` does
not exist in the repository): the resulting Zone's lattice references 99
while no region of the Zone has facility_id 99. -/
theorem ZoneData_as_zone_unchecked_link :
    99 ∈ (⟨8, "Esamir", 200, [⟨10, 99⟩], [⟨1, 10, "Base", 5⟩]⟩ : ZoneData).as_zone.lattice 10 ∧
    ∀ p ∈ (⟨8, "Esamir", 200, [⟨10, 99⟩], [⟨1, 10, "Base", 5⟩]⟩ : ZoneData).as_zone.regions,
      p.2.facility_id ≠ 99 := by
  decide

/-- C3 (amended): Zone construction performs no referential check and cannot
fail: every link record is entered into the lattice in both directions
regardless of whether its endpoints occur among the region records. -/
theorem ZoneData_as_zone_link_unvalidated (z : ZoneData) (l : LinkRec)
    (hl : l ∈ z.links) :
    l.facility_id_b ∈ z.as_zone.lattice l.facility_id_a ∧
    l.facility_id_a ∈ z.as_zone.lattice l.facility_id_b := by
  constructor
  · have h : l.facility_id_b ∈ buildLattice z.links (fun _ => ∅) l.facility_id_a := by
      rw [mem_buildLattice]
      exact Or.inr ⟨l, hl, Or.inl ⟨rfl, rfl⟩⟩
    exact h
  · have h : l.facility_id_a ∈ buildLattice z.links (fun _ => ∅) l.facility_id_b := by
      rw [mem_buildLattice]
      exact Or.inr ⟨l, hl, Or.inr ⟨rfl, rfl⟩⟩
    exact h

/-- Witness for C3's amended statement: the dangling link (10, 99) of the
counterexample zone lands in the lattice in both directions. -/
theorem ZoneData_as_zone_link_unvalidated_witness :
    99 ∈ (⟨8, "Esamir", 200, [⟨10, 99⟩], []⟩ : ZoneData).as_zone.lattice 10 ∧
    10 ∈ (⟨8, "Esamir", 200, [⟨10, 99⟩], []⟩ : ZoneData).as_zone.lattice 99 :=
  ZoneData_as_zone_link_unvalidated ⟨8, "Esamir", 200, [⟨10, 99⟩], []⟩ ⟨10, 99⟩
    (by decide)

/-- C7 (counterexample): faction_id 42 lies outside the enumerated faction
domain, yet the endpoint performs no validation and no fetch-independent
rejection: the request is answered with an ordinary empty result set, not
an `UnknownFaction` failure (no such error exists in the repository). -/
theorem capturable_bases_out_of_domain_empty :
    42 ∉ factionValues ∧
    capturable_bases 1 2 42 ⟨[⟨302020, 302030⟩]⟩
      ⟨[⟨4101, 1, none⟩, ⟨4102, 3, none⟩]⟩
      ⟨[⟨4101, some 302020⟩, ⟨4102, some 302030⟩]⟩ =
      some (⟨[⟨4101, 1, some 302020⟩, ⟨4102, 3, some 302030⟩]⟩, ∅) := by
  decide

/-- C7 (amended): the endpoint applies no domain check to `world_id`,
`zone_id` or `faction_id`: every request, in- or out-of-domain, is answered
by forwarding the fetched payloads and the raw faction_id to
`find_capturable_bases`. -/
theorem capturable_bases_eq_find (world_id : Nat) (zone_id : Nat)
    (faction_id : Nat) (fl : FacilityLinks) (ms : MapStatePayload)
    (rl : RegionListPayload) :
    capturable_bases world_id zone_id faction_id fl ms rl =
      find_capturable_bases faction_id fl ms rl := rfl

/-- C9 (counterexample): topology {(302020,302030), (302020,999)}, snapshot
302020 VS-owned, 302030 TR-owned, 999 NC-owned.  The topology contains the
edge (302020, 302030) with the claimed ownerships, yet NC's capturable set
contains 302020 (via the NC-owned neighbor 999), so "the capturable set for
NC includes neither of the two facilities" fails for arbitrary topologies. -/
theorem find_capturable_bases_nc_not_excluded :
    find_capturable_bases 2 ⟨[⟨302020, 302030⟩, ⟨302020, 999⟩]⟩
      ⟨[⟨4101, 1, none⟩, ⟨4102, 3, none⟩, ⟨4103, 2, none⟩]⟩
      ⟨[⟨4101, some 302020⟩, ⟨4102, some 302030⟩, ⟨4103, some 999⟩]⟩ =
      some (⟨[⟨4101, 1, some 302020⟩, ⟨4102, 3, some 302030⟩,
        ⟨4103, 2, some 999⟩]⟩, {302020}) := by
  decide

/-- C9 (amended): for any topology whose link list contains the edge
(302020, 302030) and any snapshot recording 302020 as VS-owned (1) and
302030 as TR-owned (3): VS's capturable set includes 302030 and TR's
includes 302020; and provided no link of the topology pairs 302020 or
302030 with an NC-owned (2) recorded facility, NC's capturable set includes
neither of the two. -/
theorem find_capturable_bases_fixture_scenario (links : FacilityLinks)
    (map_state : MapStatePayload) (region_list : RegionListPayload)
    (ss2 : List StateRec) (fac : Nat → Option IngestedState)
    (ra rb : IngestedState)
    (hing : ingestStates
        (buildRegionToFacility region_list.map_region_list (fun _ => none))
        map_state.map_state_list (fun _ => none) = some (ss2, fac))
    (hEdge : (⟨302020, 302030⟩ : LinkRec) ∈ links.facility_link_list)
    (hra : fac 302020 = some ra) (hra1 : ra.owning_faction_id = 1)
    (hrb : fac 302030 = some rb) (hrb3 : rb.owning_faction_id = 3) :
    (∃ resVS, find_capturable_bases 1 links map_state region_list =
      some (⟨ss2⟩, resVS) ∧ 302030 ∈ resVS) ∧
    (∃ resTR, find_capturable_bases 3 links map_state region_list =
      some (⟨ss2⟩, resTR) ∧ 302020 ∈ resTR) ∧
    ((∀ l ∈ links.facility_link_list, ∀ r : IngestedState,
        ((l.facility_id_a = 302020 ∨ l.facility_id_a = 302030) →
          fac l.facility_id_b = some r → r.owning_faction_id ≠ 2) ∧
        ((l.facility_id_b = 302020 ∨ l.facility_id_b = 302030) →
          fac l.facility_id_a = some r → r.owning_faction_id ≠ 2)) →
      ∃ resNC, find_capturable_bases 2 links map_state region_list =
        some (⟨ss2⟩, resNC) ∧ 302020 ∉ resNC ∧ 302030 ∉ resNC) := by
  have hkey := ingestStates_key _ _ _ _ _ hing
    (by intro k r hk; exact absurd hk (by simp))
  have hfind : ∀ f, find_capturable_bases f links map_state region_list =
      some (⟨ss2⟩, scanLinks f fac links.facility_link_list ∅) := by
    intro f
    unfold find_capturable_bases
    rw [hing]
  have hraid : ra.facility_id = 302020 := hkey _ _ hra
  have hrbid : rb.facility_id = 302030 := hkey _ _ hrb
  have hne : ra.owning_faction_id ≠ rb.owning_faction_id := by
    rw [hra1, hrb3]; decide
  refine ⟨⟨_, hfind 1, ?_⟩, ⟨_, hfind 3, ?_⟩, ?_⟩
  · rw [mem_scanLinks]
    refine Or.inr ⟨⟨302020, 302030⟩, hEdge, ?_⟩
    unfold edgeGives
    dsimp only
    rw [hra, hrb]
    dsimp only
    rw [if_pos ⟨Or.inl hra1, hne⟩, if_pos hra1, hrbid]
  · rw [mem_scanLinks]
    refine Or.inr ⟨⟨302020, 302030⟩, hEdge, ?_⟩
    unfold edgeGives
    dsimp only
    rw [hra, hrb]
    dsimp only
    have hra3 : ra.owning_faction_id ≠ 3 := by rw [hra1]; decide
    rw [if_pos ⟨Or.inr hrb3, hne⟩, if_neg hra3, hraid]
  · intro hnc
    have hnot : ∀ x, (x = 302020 ∨ x = 302030) →
        x ∉ scanLinks 2 fac links.facility_link_list ∅ := by
      intro x hx hmem
      rw [mem_scanLinks] at hmem
      rcases hmem with h0 | ⟨l, hl, hg⟩
      · exact (Finset.not_mem_empty x) h0
      · unfold edgeGives at hg
        split at hg
        · simp at hg
        next fa ha =>
          split at hg
          · simp at hg
          next fb hb =>
            split at hg
            next hcond =>
              split at hg
              next hfa =>
                injection hg with hg2
                have hlb : l.facility_id_b = x := by
                  rw [← hkey _ _ hb]; exact hg2
                refine (hnc l hl fa).2 ?_ ha hfa
                rcases hx with rfl | rfl
                · exact Or.inl hlb
                · exact Or.inr hlb
              next hfa =>
                injection hg with hg2
                have hla : l.facility_id_a = x := by
                  rw [← hkey _ _ ha]; exact hg2
                have hfb2 : fb.owning_faction_id = 2 := hcond.1.resolve_left hfa
                refine (hnc l hl fb).1 ?_ hb hfb2
                rcases hx with rfl | rfl
                · exact Or.inl hla
                · exact Or.inr hla
            next hcond => simp at hg
    exact ⟨_, hfind 2, hnot 302020 (Or.inl rfl), hnot 302030 (Or.inr rfl)⟩

/-- Witness for C9's amended statement at the concrete two-facility fixture. -/
theorem find_capturable_bases_fixture_scenario_witness :
    (∃ resVS, find_capturable_bases 1 ⟨[⟨302020, 302030⟩]⟩
      ⟨[⟨4101, 1, none⟩, ⟨4102, 3, none⟩]⟩
      ⟨[⟨4101, some 302020⟩, ⟨4102, some 302030⟩]⟩ =
      some (⟨[⟨4101, 1, some 302020⟩, ⟨4102, 3, some 302030⟩]⟩, resVS) ∧
      302030 ∈ resVS) ∧
    (∃ resTR, find_capturable_bases 3 ⟨[⟨302020, 302030⟩]⟩
      ⟨[⟨4101, 1, none⟩, ⟨4102, 3, none⟩]⟩
      ⟨[⟨4101, some 302020⟩, ⟨4102, some 302030⟩]⟩ =
      some (⟨[⟨4101, 1, some 302020⟩, ⟨4102, 3, some 302030⟩]⟩, resTR) ∧
      302020 ∈ resTR) ∧
    (∃ resNC, find_capturable_bases 2 ⟨[⟨302020, 302030⟩]⟩
      ⟨[⟨4101, 1, none⟩, ⟨4102, 3, none⟩]⟩
      ⟨[⟨4101, some 302020⟩, ⟨4102, some 302030⟩]⟩ =
      some (⟨[⟨4101, 1, some 302020⟩, ⟨4102, 3, some 302030⟩]⟩, resNC) ∧
      302020 ∉ resNC ∧ 302030 ∉ resNC) := by
  obtain ⟨hVS, hTR, hNC⟩ :=
    find_capturable_bases_fixture_scenario ⟨[⟨302020, 302030⟩]⟩
      ⟨[⟨4101, 1, none⟩, ⟨4102, 3, none⟩]⟩
      ⟨[⟨4101, some 302020⟩, ⟨4102, some 302030⟩]⟩
      [⟨4101, 1, some 302020⟩, ⟨4102, 3, some 302030⟩]
      (updateMap (updateMap (fun _ => none) 302020 ⟨4101, 1, 302020⟩)
        302030 ⟨4102, 3, 302030⟩)
      ⟨4101, 1, 302020⟩ ⟨4102, 3, 302030⟩
      rfl (by decide) rfl rfl rfl rfl
  refine ⟨hVS, hTR, hNC ?_⟩
  intro l hl r
  rw [List.mem_singleton] at hl
  subst hl
  constructor
  · intro _ hr
    have hr2 : some (⟨4102, 3, 302030⟩ : IngestedState) = some r := hr
    injection hr2 with hr3
    rw [← hr3]
    decide
  · intro _ hr
    have hr2 : some (⟨4101, 1, 302020⟩ : IngestedState) = some r := hr
    injection hr2 with hr3
    rw [← hr3]
    decide
